import Mathlib

/-
A verification development for the color-parsing core of tandemdude/pilutils:
`src/pilutils/basic.py` (canonical hex ↔ RGB(A) conversions) and
`src/parse.py` (the ten string recognizers and the universal resolver).

Modeling conventions:
* Python strings are lists of characters (`List Char`); the model covers the
  ASCII fragment (Python's `\s`, `\d`, `str.lower` and `str.strip` also accept
  some non-ASCII characters, which no claim exercises).
* Python ints are `Int` (arbitrary precision); on the guarded nonnegative
  domains the bodies use `Nat`, where Python `>>`, `<<`, `|`, `%` agree with
  the `Nat` operations.
* A Python float produced by `float()` on a decimal literal is modeled as the
  exact decimal rational it denotes, kept as a numerator over a power-of-ten
  denominator (`Dec`); `round` is round-half-to-even, as in Python 3.
* Raising `ValueError` is `none`; a returned value is `some`.
* The regexes are embedded as deterministic maximal-munch scanners, which are
  equivalent to the backtracking regexes here because every character that may
  follow a repeated class (`\s`, `,`, `)`, `%`, `.`) is outside that class.
-/

namespace Pilutils

/-- Python whitespace as matched by `\s` and stripped by `str.strip`
    (ASCII range). -/
def py_isspace (c : Char) : Bool :=
  c == ' ' || c == '\t' || c == '\n' || c == '\r' || c == '\x0b' || c == '\x0c'

/-- Python `str.strip()`: drop leading and trailing whitespace. -/
def py_strip (s : List Char) : List Char :=
  ((s.dropWhile py_isspace).reverse.dropWhile py_isspace).reverse

/-- Python `str.lower()` (ASCII range). -/
def py_lower (s : List Char) : List Char := s.map Char.toLower

/-- The character class `[0-9A-Fa-f]`. -/
def is_hex_digit (c : Char) : Bool :=
  c.isDigit || ('a' ≤ c && c ≤ 'f') || ('A' ≤ c && c ≤ 'F')

/-- The value of one hex digit. -/
def hex_digit_val (c : Char) : Nat :=
  if c.isDigit then c.toNat - '0'.toNat
  else if 'a' ≤ c && c ≤ 'f' then c.toNat - 'a'.toNat + 10
  else c.toNat - 'A'.toNat + 10

/-- Python `int(s, 16)` on a string of hex digits. -/
def hex_to_nat (s : List Char) : Nat :=
  s.foldl (fun acc c => acc * 16 + hex_digit_val c) 0

/-- Python `int(s)` on a string of decimal digits. -/
def digits_to_nat (s : List Char) : Nat :=
  s.foldl (fun acc c => acc * 10 + (c.toNat - '0'.toNat)) 0

/-- `hex_to_rgb` from `src/pilutils/basic.py`: range-check, then extract the
    three bytes with `>>` and `% 256`. -/
def hex_to_rgb (rgb : Int) : Option (Nat × Nat × Nat) :=
  if 0 ≤ rgb ∧ rgb ≤ 0xFFFFFF then
    some (rgb.toNat >>> 16, (rgb.toNat >>> 8) % 256, rgb.toNat % 256)
  else none

/-- `hex_to_rgba` from `src/pilutils/basic.py`. -/
def hex_to_rgba (rgba : Int) : Option (Nat × Nat × Nat × Nat) :=
  if 0 ≤ rgba ∧ rgba ≤ 0xFFFFFFFF then
    some (rgba.toNat >>> 24, (rgba.toNat >>> 16) % 256,
      (rgba.toNat >>> 8) % 256, rgba.toNat % 256)
  else none

/-- A Python number as seen by the `isinstance(n, int)` checks of
    `rgb_to_hex`/`rgba_to_hex`: an `int`, or a `float` carrying its exact
    value (used only in statements; the code never reads a float's value). -/
inductive PyNum where
  | int (n : Int)
  | float (q : ℚ)

def PyNum.isInt : PyNum → Bool
  | .int _ => true
  | .float _ => false

def PyNum.intVal : PyNum → Int
  | .int n => n
  | .float _ => 0

instance : DecidableEq PyNum := fun a b =>
  match a, b with
  | .int m, .int n => if h : m = n then .isTrue (by rw [h]) else .isFalse (by simp [h])
  | .float p, .float q => if h : p = q then .isTrue (by rw [h]) else .isFalse (by simp [h])
  | .int _, .float _ => .isFalse (by simp)
  | .float _, .int _ => .isFalse (by simp)

/-- The per-component test of `rgb_to_hex`/`rgba_to_hex`:
    `isinstance(n, int) and 0 <= n < 256`. -/
def valid_byte (n : PyNum) : Bool :=
  n.isInt && decide (0 ≤ n.intVal) && decide (n.intVal < 256)

/-- `rgb_to_hex` from `src/pilutils/basic.py`: component type/range checks
    and the arity check, then `r << 16 | g << 8 | b`. -/
def rgb_to_hex (rgb : List PyNum) : Option Nat :=
  if rgb.all valid_byte ∧ rgb.length = 3 then
    match rgb with
    | [r, g, b] => some (r.intVal.toNat <<< 16 ||| g.intVal.toNat <<< 8 ||| b.intVal.toNat)
    | _ => none
  else none

/-- `rgba_to_hex` from `src/pilutils/basic.py`. -/
def rgba_to_hex (rgba : List PyNum) : Option Nat :=
  if rgba.all valid_byte ∧ rgba.length = 4 then
    match rgba with
    | [r, g, b, a] => some (r.intVal.toNat <<< 24 ||| g.intVal.toNat <<< 16 |||
        b.intVal.toNat <<< 8 ||| a.intVal.toNat)
    | _ => none
  else none

/-- The `#?` part of the hex regexes: strip the input, then drop one
    leading `#` when present. -/
def strip_hash (s : List Char) : List Char :=
  let t := py_strip s
  if t.head? = some '#' then t.tail else t

/-- `parse_hex6` from `src/parse.py`: regex `^#?([0-9A-Fa-f]{6})$` on the
    stripped input, then `int(_, 16)` and delegation to `hex_to_rgb`. -/
def parse_hex6 (hex6 : List Char) : Option (Nat × Nat × Nat) :=
  let s := strip_hash hex6
  if s.length = 6 ∧ s.all is_hex_digit then hex_to_rgb (hex_to_nat s) else none

/-- `parse_hex3` from `src/parse.py`: regex `^#?([0-9A-Fa-f]{3})$` on the
    stripped input, then `int(c * 2, 16)` on each captured digit. -/
def parse_hex3 (hex3 : List Char) : Option (Nat × Nat × Nat) :=
  match strip_hash hex3 with
  | [a, b, c] =>
    if is_hex_digit a ∧ is_hex_digit b ∧ is_hex_digit c then
      some (hex_to_nat [a, a], hex_to_nat [b, b], hex_to_nat [c, c])
    else none
  | _ => none

/-- Consume an expected literal character sequence, returning the rest. -/
def expect_lit : List Char → List Char → Option (List Char)
  | [], s => some s
  | c :: cs, d :: s => if c = d then expect_lit cs s else none
  | _ :: _, [] => none

/-- `\s*`: skip whitespace. -/
def skip_ws (s : List Char) : List Char := s.dropWhile py_isspace

/-- `\d{1,3}` (maximal munch): the scanned integer value and the rest. -/
def scan_int_1to3 (s : List Char) : Option (Nat × List Char) :=
  let ds := s.takeWhile Char.isDigit
  let rest := s.dropWhile Char.isDigit
  if 1 ≤ ds.length ∧ ds.length ≤ 3 then some (digits_to_nat ds, rest) else none

/-- An exact decimal value `num / 10 ^ exp`: the model of the Python float
    produced by `float()` on a decimal literal. -/
structure Dec where
  num : Nat
  exp : Nat
deriving DecidableEq

/-- The denominator of a `Dec`. -/
def Dec.den (d : Dec) : Nat := 10 ^ d.exp

/-- Python 3 `round` on the exact nonnegative rational `a / b` (`b > 0`):
    round half to even. -/
def round_half_even (a b : Nat) : Nat :=
  let q := a / b
  let r := a % b
  if 2 * r < b then q
  else if b < 2 * r then q + 1
  else if q % 2 = 0 then q else q + 1

/-- `float(m) * 255` rounded: the component extraction of
    `parse_rgbfunc_float`. -/
def Dec.mul255_round (d : Dec) : Nat := round_half_even (d.num * 255) d.den

/-- `float(m) * 255 / 100` rounded: the component extraction of
    `parse_rgbfunc_percent`. -/
def Dec.percent255_round (d : Dec) : Nat := round_half_even (d.num * 255) (d.den * 100)

/-- `[01]\.\d+`: the scanned decimal value and the rest. -/
def scan_float01 (s : List Char) : Option (Dec × List Char) :=
  match s with
  | c :: '.' :: rest =>
    if c = '0' ∨ c = '1' then
      let ds := rest.takeWhile Char.isDigit
      let rest' := rest.dropWhile Char.isDigit
      if 1 ≤ ds.length then
        some (⟨(if c = '1' then 1 else 0) * 10 ^ ds.length + digits_to_nat ds,
          ds.length⟩, rest')
      else none
    else none
  | _ => none

/-- `\d{1,3}(?:\.\d+)?%`: the scanned decimal value and the rest. A `.` not
    followed by a digit is left unconsumed, as regex backtracking would. -/
def scan_percent_num (s : List Char) : Option (Dec × List Char) :=
  let ds := s.takeWhile Char.isDigit
  let rest := s.dropWhile Char.isDigit
  if 1 ≤ ds.length ∧ ds.length ≤ 3 then
    let p :=
      match rest with
      | '.' :: rest2 =>
        let fs := rest2.takeWhile Char.isDigit
        let rest3 := rest2.dropWhile Char.isDigit
        if 1 ≤ fs.length then
          ((⟨digits_to_nat ds * 10 ^ fs.length + digits_to_nat fs, fs.length⟩ : Dec),
            rest3)
        else ((⟨digits_to_nat ds, 0⟩ : Dec), '.' :: rest2)
      | _ => ((⟨digits_to_nat ds, 0⟩ : Dec), rest)
    match p.2 with
    | '%' :: r => some (p.1, r)
    | _ => none
  else none

/-- The shared shape `^rgb\(\s*A\s*,\s*B\s*,\s*C\s*\)$` of the three
    functional notations, with components scanned by `comp`. -/
def scan_rgbfunc {α : Type} (comp : List Char → Option (α × List Char))
    (s : List Char) : Option (α × α × α) := do
  let s ← expect_lit ['r', 'g', 'b', '('] s
  let (a, s) ← comp (skip_ws s)
  let s ← expect_lit [','] (skip_ws s)
  let (b, s) ← comp (skip_ws s)
  let s ← expect_lit [','] (skip_ws s)
  let (c, s) ← comp (skip_ws s)
  let s ← expect_lit [')'] (skip_ws s)
  if s = [] then some (a, b, c) else none

/-- `parse_rgbfunc_int` from `src/parse.py`: match the grammar on the
    stripped input, then reject if any value exceeds 255. -/
def parse_rgbfunc_int (rgbfunc : List Char) : Option (Nat × Nat × Nat) :=
  match scan_rgbfunc scan_int_1to3 (py_strip rgbfunc) with
  | some (a, b, c) => if a > 255 ∨ b > 255 ∨ c > 255 then none else some (a, b, c)
  | none => none

/-- `parse_rgbfunc_float` from `src/parse.py`: match the grammar on the
    stripped input, reject if any value exceeds 1 (`num > den`), else scale
    each by 255 and round. -/
def parse_rgbfunc_float (rgbfunc : List Char) : Option (Nat × Nat × Nat) :=
  match scan_rgbfunc scan_float01 (py_strip rgbfunc) with
  | some (a, b, c) =>
    if a.num > a.den ∨ b.num > b.den ∨ c.num > c.den then none
    else some (a.mul255_round, b.mul255_round, c.mul255_round)
  | none => none

/-- `parse_rgbfunc_percent` from `src/parse.py`: match the grammar on the
    stripped input, reject if any value exceeds 100 (`num > 100 * den`),
    else scale each by 255/100 and round. -/
def parse_rgbfunc_percent (rgbfunc : List Char) : Option (Nat × Nat × Nat) :=
  match scan_rgbfunc scan_percent_num (py_strip rgbfunc) with
  | some (a, b, c) =>
    if a.num > 100 * a.den ∨ b.num > 100 * b.den ∨ c.num > 100 * c.den then none
    else some (a.percent255_round, b.percent255_round, c.percent255_round)
  | none => none

/-- A Dataset Table: an association list modeling the Python dict handed to
    the module (`List.lookup` is the dict lookup; keys are unique). -/
abbrev Table := List (List Char × List Char)

/-- The shared body of `parse_name_css` … `parse_name_meodai` from
    `src/parse.py`: lowercase the input (the source does NOT strip it), look
    it up in the table, delegate the stored value to `parse_hex6`. -/
def parse_name (table : Table) (name : List Char) : Option (Nat × Nat × Nat) :=
  match table.lookup (py_lower name) with
  | some v => parse_hex6 v
  | none => none

/-- The keyword flags of `parse` in `src/parse.py` (all default `True`). -/
structure ParseConfig where
  hex6 : Bool
  hex3 : Bool
  rgbfunc_int : Bool
  rgbfunc_float : Bool
  rgbfunc_percent : Bool
  name_css : Bool
  name_crayola : Bool
  name_xkcd : Bool
  name_meodai_best : Bool
  name_meodai : Bool

/-- The default configuration: every recognizer enabled. -/
def ParseConfig.allOn : ParseConfig :=
  ⟨true, true, true, true, true, true, true, true, true, true⟩

/-- The five Dataset Tables loaded at module import time. -/
structure Tables where
  css : Table
  crayola : Table
  xkcd : Table
  meodai_best : Table
  meodai : Table

/-- The `funcs` list built by `parse` in `src/parse.py`: the enabled
    recognizers in the fixed canonical order. -/
def parse_funcs (tb : Tables) (cfg : ParseConfig) :
    List (List Char → Option (Nat × Nat × Nat)) :=
  (if cfg.hex6 then [parse_hex6] else []) ++
  (if cfg.hex3 then [parse_hex3] else []) ++
  (if cfg.rgbfunc_int then [parse_rgbfunc_int] else []) ++
  (if cfg.rgbfunc_float then [parse_rgbfunc_float] else []) ++
  (if cfg.rgbfunc_percent then [parse_rgbfunc_percent] else []) ++
  (if cfg.name_css then [parse_name tb.css] else []) ++
  (if cfg.name_crayola then [parse_name tb.crayola] else []) ++
  (if cfg.name_xkcd then [parse_name tb.xkcd] else []) ++
  (if cfg.name_meodai_best then [parse_name tb.meodai_best] else []) ++
  (if cfg.name_meodai then [parse_name tb.meodai] else [])

/-- `parse` from `src/parse.py`: run every enabled recognizer in order,
    remembering the most recent success (`res = func(colstr)` under
    `try`/`except ValueError: pass`); `none` is the final `ValueError` when
    no recognizer succeeded. -/
def parse (tb : Tables) (colstr : List Char) (cfg : ParseConfig) :
    Option (Nat × Nat × Nat) :=
  (parse_funcs tb cfg).foldl (fun res func => (func colstr).or res) none

/-- The canonical 6-hex-digit lowercase string for a Triple. -/
def to_hex6 (t : Nat × Nat × Nat) : List Char :=
  [Nat.digitChar (t.1 / 16), Nat.digitChar (t.1 % 16),
   Nat.digitChar (t.2.1 / 16), Nat.digitChar (t.2.1 % 16),
   Nat.digitChar (t.2.2 / 16), Nat.digitChar (t.2.2 % 16)]

example : parse_hex6 "#AB34DF".data = some (171, 52, 223) := by decide
example : parse_hex6 " ab34df ".data = some (171, 52, 223) := by decide
example : parse_hex6 "ab34d".data = none := by decide
example : parse_hex3 "#a3d".data = some (170, 51, 221) := by decide
example : parse_rgbfunc_int "rgb(171, 52, 223)".data = some (171, 52, 223) := by decide
example : parse_rgbfunc_int "rgb(256,0,0)".data = none := by decide
example : parse_rgbfunc_float "rgb(0.67,0.2,0.87)".data = some (171, 51, 222) := by decide
example : parse_rgbfunc_percent "rgb(67%,20%,87.5%)".data = some (171, 51, 223) := by decide
example : parse_name [("red".data, "ff0000".data)] "RED".data = some (255, 0, 0) := by decide
example : parse_name [("red".data, "ff0000".data)] " red ".data = none := by decide
example :
    parse ⟨[], [], [], [], []⟩ "#ab34df".data ParseConfig.allOn = some (171, 52, 223) := by
  decide

lemma or_eq_add_of_lt (i a : Nat) {b : Nat} (hd : 2 ^ i ∣ a) (h : b < 2 ^ i) :
    a ||| b = a + b := by
  obtain ⟨c, rfl⟩ := hd
  exact (Nat.mul_add_lt_is_or h c).symm

lemma pack3_eq (r : Nat) {g b : Nat} (hg : g < 256) (hb : b < 256) :
    r <<< 16 ||| g <<< 8 ||| b = r * 2 ^ 16 + g * 2 ^ 8 + b := by
  rw [Nat.shiftLeft_eq, Nat.shiftLeft_eq,
    or_eq_add_of_lt 16 (r * 2 ^ 16) ⟨r, Nat.mul_comm r (2 ^ 16)⟩ (by omega),
    or_eq_add_of_lt 8 (r * 2 ^ 16 + g * 2 ^ 8) ⟨r * 2 ^ 8 + g, by ring⟩ (by omega)]

lemma pack4_eq (r : Nat) {g b a : Nat} (hg : g < 256) (hb : b < 256) (ha : a < 256) :
    r <<< 24 ||| g <<< 16 ||| b <<< 8 ||| a =
      r * 2 ^ 24 + g * 2 ^ 16 + b * 2 ^ 8 + a := by
  rw [Nat.shiftLeft_eq, Nat.shiftLeft_eq, Nat.shiftLeft_eq,
    or_eq_add_of_lt 24 (r * 2 ^ 24) ⟨r, Nat.mul_comm r (2 ^ 24)⟩ (by omega),
    or_eq_add_of_lt 16 (r * 2 ^ 24 + g * 2 ^ 16) ⟨r * 2 ^ 8 + g, by ring⟩ (by omega),
    or_eq_add_of_lt 8 (r * 2 ^ 24 + g * 2 ^ 16 + b * 2 ^ 8)
      ⟨r * 2 ^ 16 + g * 2 ^ 8 + b, by ring⟩ (by omega)]

lemma hex_to_rgb_of_le {n : Int} (h0 : 0 ≤ n) (h1 : n ≤ 0xFFFFFF) :
    hex_to_rgb n = some (n.toNat / 2 ^ 16, n.toNat / 2 ^ 8 % 256, n.toNat % 256) := by
  rw [hex_to_rgb, if_pos ⟨h0, h1⟩, Nat.shiftRight_eq_div_pow, Nat.shiftRight_eq_div_pow]

lemma hex_to_rgba_of_le {n : Int} (h0 : 0 ≤ n) (h1 : n ≤ 0xFFFFFFFF) :
    hex_to_rgba n =
      some (n.toNat / 2 ^ 24, n.toNat / 2 ^ 16 % 256, n.toNat / 2 ^ 8 % 256,
        n.toNat % 256) := by
  rw [hex_to_rgba, if_pos ⟨h0, h1⟩, Nat.shiftRight_eq_div_pow, Nat.shiftRight_eq_div_pow,
    Nat.shiftRight_eq_div_pow]

lemma valid_byte_int {r : Nat} (h : r ≤ 255) : valid_byte (PyNum.int r) = true := by
  simp [valid_byte, PyNum.isInt, PyNum.intVal]
  omega

lemma rgb_to_hex_of_le {r g b : Nat} (hr : r ≤ 255) (hg : g ≤ 255) (hb : b ≤ 255) :
    rgb_to_hex [PyNum.int r, PyNum.int g, PyNum.int b] =
      some (r * 2 ^ 16 + g * 2 ^ 8 + b) := by
  rw [rgb_to_hex, if_pos]
  · simp only [PyNum.intVal, Int.toNat_natCast]
    rw [pack3_eq r (by omega) (by omega)]
  · refine ⟨?_, rfl⟩
    simp [valid_byte_int hr, valid_byte_int hg, valid_byte_int hb]

lemma rgba_to_hex_of_le {r g b a : Nat} (hr : r ≤ 255) (hg : g ≤ 255) (hb : b ≤ 255)
    (ha : a ≤ 255) :
    rgba_to_hex [PyNum.int r, PyNum.int g, PyNum.int b, PyNum.int a] =
      some (r * 2 ^ 24 + g * 2 ^ 16 + b * 2 ^ 8 + a) := by
  rw [rgba_to_hex, if_pos]
  · simp only [PyNum.intVal, Int.toNat_natCast]
    rw [pack4_eq r (by omega) (by omega) (by omega)]
  · refine ⟨?_, rfl⟩
    simp [valid_byte_int hr, valid_byte_int hg, valid_byte_int hb, valid_byte_int ha]

/-- C3: the canonical conversions are exact inverses over their valid
    domains: `rgb_to_hex (hex_to_rgb n) = n` for `n` in `[0, 0xFFFFFF]`,
    `hex_to_rgb (rgb_to_hex t) = t` for triples with components in
    `[0, 255]`, and the same round-trips for the RGBA pair over
    `[0, 0xFFFFFFFF]` and valid quads. -/
theorem C3_conversion_roundtrips :
    (∀ n : Nat, n ≤ 0xFFFFFF → ∃ r g b : Nat,
      hex_to_rgb (n : Int) = some (r, g, b) ∧
      rgb_to_hex [PyNum.int r, PyNum.int g, PyNum.int b] = some n) ∧
    (∀ r g b : Nat, r ≤ 255 → g ≤ 255 → b ≤ 255 → ∃ n : Nat,
      rgb_to_hex [PyNum.int r, PyNum.int g, PyNum.int b] = some n ∧
      hex_to_rgb (n : Int) = some (r, g, b)) ∧
    (∀ n : Nat, n ≤ 0xFFFFFFFF → ∃ r g b a : Nat,
      hex_to_rgba (n : Int) = some (r, g, b, a) ∧
      rgba_to_hex [PyNum.int r, PyNum.int g, PyNum.int b, PyNum.int a] = some n) ∧
    (∀ r g b a : Nat, r ≤ 255 → g ≤ 255 → b ≤ 255 → a ≤ 255 → ∃ n : Nat,
      rgba_to_hex [PyNum.int r, PyNum.int g, PyNum.int b, PyNum.int a] = some n ∧
      hex_to_rgba (n : Int) = some (r, g, b, a)) := by
  refine ⟨?_, ?_, ?_, ?_⟩
  · intro n hn
    refine ⟨n / 2 ^ 16, n / 2 ^ 8 % 256, n % 256, ?_, ?_⟩
    · rw [hex_to_rgb_of_le (by positivity) (by exact_mod_cast hn), Int.toNat_natCast]
    · rw [rgb_to_hex_of_le (by omega) (by omega) (by omega), Option.some_inj]
      omega
  · intro r g b hr hg hb
    refine ⟨r * 2 ^ 16 + g * 2 ^ 8 + b, rgb_to_hex_of_le hr hg hb, ?_⟩
    rw [hex_to_rgb_of_le (by positivity) (by push_cast; omega)]
    simp only [Int.toNat_natCast, Option.some_inj, Prod.mk.injEq]
    refine ⟨?_, ?_, ?_⟩ <;> omega
  · intro n hn
    refine ⟨n / 2 ^ 24, n / 2 ^ 16 % 256, n / 2 ^ 8 % 256, n % 256, ?_, ?_⟩
    · rw [hex_to_rgba_of_le (by positivity) (by exact_mod_cast hn), Int.toNat_natCast]
    · rw [rgba_to_hex_of_le (by omega) (by omega) (by omega) (by omega), Option.some_inj]
      omega
  · intro r g b a hr hg hb ha
    refine ⟨r * 2 ^ 24 + g * 2 ^ 16 + b * 2 ^ 8 + a, rgba_to_hex_of_le hr hg hb ha, ?_⟩
    rw [hex_to_rgba_of_le (by positivity) (by push_cast; omega)]
    simp only [Int.toNat_natCast, Option.some_inj, Prod.mk.injEq]
    refine ⟨?_, ?_, ?_, ?_⟩ <;> omega

/-- Witness for C3 at concrete inputs. -/
theorem C3_conversion_roundtrips_witness :
    (∃ r g b : Nat, hex_to_rgb ((0xAB34DF : Nat) : Int) = some (r, g, b) ∧
      rgb_to_hex [PyNum.int r, PyNum.int g, PyNum.int b] = some 0xAB34DF) ∧
    (∃ n : Nat, rgb_to_hex [PyNum.int 171, PyNum.int 52, PyNum.int 223] = some n ∧
      hex_to_rgb (n : Int) = some (171, 52, 223)) ∧
    (∃ r g b a : Nat, hex_to_rgba ((0xAB34DF01 : Nat) : Int) = some (r, g, b, a) ∧
      rgba_to_hex [PyNum.int r, PyNum.int g, PyNum.int b, PyNum.int a] =
        some 0xAB34DF01) ∧
    (∃ n : Nat, rgba_to_hex [PyNum.int 171, PyNum.int 52, PyNum.int 223, PyNum.int 1] =
      some n ∧ hex_to_rgba (n : Int) = some (171, 52, 223, 1)) :=
  ⟨C3_conversion_roundtrips.1 0xAB34DF (by norm_num),
   C3_conversion_roundtrips.2.1 171 52 223 (by norm_num) (by norm_num) (by norm_num),
   C3_conversion_roundtrips.2.2.1 0xAB34DF01 (by norm_num),
   C3_conversion_roundtrips.2.2.2 171 52 223 1 (by norm_num) (by norm_num) (by norm_num)
     (by norm_num)⟩

lemma valid_byte_int_iff {x : Int} : valid_byte (PyNum.int x) = true ↔ 0 ≤ x ∧ x < 256 := by
  simp [valid_byte, PyNum.isInt, PyNum.intVal]

lemma exists_of_length_four {α : Type} {l : List α} (h : l.length = 4) :
    ∃ a b c d, l = [a, b, c, d] := by
  match l with
  | [a, b, c, d] => exact ⟨a, b, c, d, rfl⟩
  | [] | [_] | [_, _] | [_, _, _] => simp at h
  | _ :: _ :: _ :: _ :: _ :: _ => simp at h

lemma rgb_to_hex_eq_none_iff (l : List PyNum) :
    rgb_to_hex l = none ↔ ¬((∀ x ∈ l, valid_byte x = true) ∧ l.length = 3) := by
  rw [rgb_to_hex.eq_def]
  split_ifs with h
  · obtain ⟨h1, h2⟩ := h
    obtain ⟨x, y, z, rfl⟩ := List.length_eq_three.1 h2
    rw [List.all_eq_true] at h1
    exact iff_of_false (by simp) fun hc => hc ⟨h1, rfl⟩
  · rw [List.all_eq_true] at h
    simpa using h

lemma rgba_to_hex_eq_none_iff (l : List PyNum) :
    rgba_to_hex l = none ↔ ¬((∀ x ∈ l, valid_byte x = true) ∧ l.length = 4) := by
  rw [rgba_to_hex.eq_def]
  split_ifs with h
  · obtain ⟨h1, h2⟩ := h
    obtain ⟨x, y, z, w, rfl⟩ := exists_of_length_four h2
    rw [List.all_eq_true] at h1
    exact iff_of_false (by simp) fun hc => hc ⟨h1, rfl⟩
  · rw [List.all_eq_true] at h
    simpa using h

lemma rgb_to_hex_int_of_le {r g b : Int} (hr0 : 0 ≤ r) (hr1 : r ≤ 255) (hg0 : 0 ≤ g)
    (hg1 : g ≤ 255) (hb0 : 0 ≤ b) (hb1 : b ≤ 255) :
    rgb_to_hex [PyNum.int r, PyNum.int g, PyNum.int b] =
      some (r.toNat * 2 ^ 16 + g.toNat * 2 ^ 8 + b.toNat) := by
  rw [rgb_to_hex, if_pos]
  · simp only [PyNum.intVal]
    rw [pack3_eq r.toNat (by omega) (by omega)]
  · refine ⟨?_, rfl⟩
    simp only [List.all_cons, List.all_nil, Bool.and_true, Bool.and_eq_true]
    exact ⟨valid_byte_int_iff.2 ⟨hr0, by omega⟩, valid_byte_int_iff.2 ⟨hg0, by omega⟩,
      valid_byte_int_iff.2 ⟨hb0, by omega⟩⟩

lemma rgba_to_hex_int_of_le {r g b a : Int} (hr0 : 0 ≤ r) (hr1 : r ≤ 255) (hg0 : 0 ≤ g)
    (hg1 : g ≤ 255) (hb0 : 0 ≤ b) (hb1 : b ≤ 255) (ha0 : 0 ≤ a) (ha1 : a ≤ 255) :
    rgba_to_hex [PyNum.int r, PyNum.int g, PyNum.int b, PyNum.int a] =
      some (r.toNat * 2 ^ 24 + g.toNat * 2 ^ 16 + b.toNat * 2 ^ 8 + a.toNat) := by
  rw [rgba_to_hex, if_pos]
  · simp only [PyNum.intVal]
    rw [pack4_eq r.toNat (by omega) (by omega) (by omega)]
  · refine ⟨?_, rfl⟩
    simp only [List.all_cons, List.all_nil, Bool.and_true, Bool.and_eq_true]
    exact ⟨valid_byte_int_iff.2 ⟨hr0, by omega⟩, valid_byte_int_iff.2 ⟨hg0, by omega⟩,
      valid_byte_int_iff.2 ⟨hb0, by omega⟩, valid_byte_int_iff.2 ⟨ha0, by omega⟩⟩

lemma map_int_valid_iff (l : List Int) :
    (∀ x ∈ l.map PyNum.int, valid_byte x = true) ↔ ∀ y ∈ l, 0 ≤ y ∧ y < 256 := by
  simp [valid_byte_int_iff]

/-- C4: `hex_to_rgb` fails exactly for integers outside `[0, 0xFFFFFF]` and
    otherwise extracts red as bits 16–23, green as bits 8–15, blue as bits
    0–7; `hex_to_rgba` fails exactly outside `[0, 0xFFFFFFFF]`;
    `rgb_to_hex`/`rgba_to_hex` fail exactly when a component is outside
    `[0, 255]` or the arity is not 3 (resp. 4), and otherwise pack the
    components most-significant-byte-first. -/
theorem C4_conversion_range_errors :
    (∀ n : Int, hex_to_rgb n = none ↔ (n < 0 ∨ 0xFFFFFF < n)) ∧
    (∀ n : Int, 0 ≤ n → n ≤ 0xFFFFFF →
      hex_to_rgb n =
        some (n.toNat / 2 ^ 16 % 256, n.toNat / 2 ^ 8 % 256, n.toNat % 256)) ∧
    (∀ n : Int, hex_to_rgba n = none ↔ (n < 0 ∨ 0xFFFFFFFF < n)) ∧
    (∀ n : Int, 0 ≤ n → n ≤ 0xFFFFFFFF →
      hex_to_rgba n =
        some (n.toNat / 2 ^ 24 % 256, n.toNat / 2 ^ 16 % 256, n.toNat / 2 ^ 8 % 256,
          n.toNat % 256)) ∧
    (∀ l : List Int, rgb_to_hex (l.map PyNum.int) = none ↔
      ((∃ x ∈ l, x < 0 ∨ 255 < x) ∨ l.length ≠ 3)) ∧
    (∀ r g b : Int, 0 ≤ r → r ≤ 255 → 0 ≤ g → g ≤ 255 → 0 ≤ b → b ≤ 255 →
      rgb_to_hex [PyNum.int r, PyNum.int g, PyNum.int b] =
        some (r.toNat * 2 ^ 16 + g.toNat * 2 ^ 8 + b.toNat)) ∧
    (∀ l : List Int, rgba_to_hex (l.map PyNum.int) = none ↔
      ((∃ x ∈ l, x < 0 ∨ 255 < x) ∨ l.length ≠ 4)) ∧
    (∀ r g b a : Int, 0 ≤ r → r ≤ 255 → 0 ≤ g → g ≤ 255 → 0 ≤ b → b ≤ 255 →
      0 ≤ a → a ≤ 255 →
      rgba_to_hex [PyNum.int r, PyNum.int g, PyNum.int b, PyNum.int a] =
        some (r.toNat * 2 ^ 24 + g.toNat * 2 ^ 16 + b.toNat * 2 ^ 8 + a.toNat)) := by
  refine ⟨?_, ?_, ?_, ?_, ?_, ?_, ?_, ?_⟩
  · intro n
    by_cases h : 0 ≤ n ∧ n ≤ 0xFFFFFF
    · rw [hex_to_rgb, if_pos h]
      simp only [reduceCtorEq, false_iff]
      omega
    · rw [hex_to_rgb, if_neg h]
      simp only [true_iff]
      omega
  · intro n h0 h1
    rw [hex_to_rgb_of_le h0 h1]
    have hn : n.toNat ≤ 0xFFFFFF := by omega
    have he : n.toNat / 2 ^ 16 % 256 = n.toNat / 2 ^ 16 := by omega
    rw [he]
  · intro n
    by_cases h : 0 ≤ n ∧ n ≤ 0xFFFFFFFF
    · rw [hex_to_rgba, if_pos h]
      simp only [reduceCtorEq, false_iff]
      omega
    · rw [hex_to_rgba, if_neg h]
      simp only [true_iff]
      omega
  · intro n h0 h1
    rw [hex_to_rgba_of_le h0 h1]
    have hn : n.toNat ≤ 0xFFFFFFFF := by omega
    have he : n.toNat / 2 ^ 24 % 256 = n.toNat / 2 ^ 24 := by omega
    rw [he]
  · intro l
    rw [rgb_to_hex_eq_none_iff, List.length_map, map_int_valid_iff]
    constructor
    · intro h
      by_contra hc
      push_neg at hc
      refine h ⟨fun y hy => ?_, hc.2⟩
      have := hc.1 y hy
      omega
    · intro h hc
      rcases h with ⟨x, hx, hxr⟩ | hlen
      · have := hc.1 x hx
        omega
      · exact hlen hc.2
  · intro r g b hr0 hr1 hg0 hg1 hb0 hb1
    exact rgb_to_hex_int_of_le hr0 hr1 hg0 hg1 hb0 hb1
  · intro l
    rw [rgba_to_hex_eq_none_iff, List.length_map, map_int_valid_iff]
    constructor
    · intro h
      by_contra hc
      push_neg at hc
      refine h ⟨fun y hy => ?_, hc.2⟩
      have := hc.1 y hy
      omega
    · intro h hc
      rcases h with ⟨x, hx, hxr⟩ | hlen
      · have := hc.1 x hx
        omega
      · exact hlen hc.2
  · intro r g b a hr0 hr1 hg0 hg1 hb0 hb1 ha0 ha1
    exact rgba_to_hex_int_of_le hr0 hr1 hg0 hg1 hb0 hb1 ha0 ha1

/-- Witness for C4 at concrete inputs. -/
theorem C4_conversion_range_errors_witness :
    (hex_to_rgb 0x1000000 = none ↔
      ((0x1000000 : Int) < 0 ∨ (0xFFFFFF : Int) < 0x1000000)) ∧
    hex_to_rgb 0xAB34DF = some (171, 52, 223) ∧
    (hex_to_rgba (-1) = none ↔ ((-1 : Int) < 0 ∨ (0xFFFFFFFF : Int) < (-1 : Int))) ∧
    hex_to_rgba 0xAB34DF01 = some (171, 52, 223, 1) ∧
    (rgb_to_hex ([256, 0, 0].map PyNum.int) = none ↔
      ((∃ x ∈ [(256 : Int), 0, 0], x < 0 ∨ 255 < x) ∨ [(256 : Int), 0, 0].length ≠ 3)) ∧
    rgb_to_hex [PyNum.int 171, PyNum.int 52, PyNum.int 223] = some 0xAB34DF ∧
    (rgba_to_hex ([0, 0].map PyNum.int) = none ↔
      ((∃ x ∈ [(0 : Int), 0], x < 0 ∨ 255 < x) ∨ [(0 : Int), 0].length ≠ 4)) ∧
    rgba_to_hex [PyNum.int 171, PyNum.int 52, PyNum.int 223, PyNum.int 1] =
      some 0xAB34DF01 := by
  refine ⟨C4_conversion_range_errors.1 0x1000000, ?_,
    C4_conversion_range_errors.2.2.1 (-1), ?_,
    C4_conversion_range_errors.2.2.2.2.1 [256, 0, 0], ?_,
    C4_conversion_range_errors.2.2.2.2.2.2.1 [0, 0], ?_⟩
  · have := C4_conversion_range_errors.2.1 0xAB34DF (by norm_num) (by norm_num)
    simpa using this
  · have := C4_conversion_range_errors.2.2.2.1 0xAB34DF01 (by norm_num) (by norm_num)
    simpa using this
  · have := C4_conversion_range_errors.2.2.2.2.2.1 171 52 223 (by norm_num) (by norm_num)
      (by norm_num) (by norm_num) (by norm_num) (by norm_num)
    simpa using this
  · have := C4_conversion_range_errors.2.2.2.2.2.2.2 171 52 223 1 (by norm_num)
      (by norm_num) (by norm_num) (by norm_num) (by norm_num) (by norm_num) (by norm_num)
      (by norm_num)
    simpa using this

lemma rgb_to_hex_none_of_nonint {l : List PyNum} (h : ∃ x ∈ l, x.isInt = false) :
    rgb_to_hex l = none := by
  rw [rgb_to_hex_eq_none_iff]
  rintro ⟨hall, -⟩
  obtain ⟨x, hx, hxi⟩ := h
  have := hall x hx
  rw [valid_byte, hxi] at this
  simp at this

lemma rgba_to_hex_none_of_nonint {l : List PyNum} (h : ∃ x ∈ l, x.isInt = false) :
    rgba_to_hex l = none := by
  rw [rgba_to_hex_eq_none_iff]
  rintro ⟨hall, -⟩
  obtain ⟨x, hx, hxi⟩ := h
  have := hall x hx
  rw [valid_byte, hxi] at this
  simp at this

/-- C10: `rgb_to_hex` and `rgba_to_hex` require every component to be of
    integer type: a tuple of the correct arity containing a non-`int`
    component (such as the float `1.0`, which is within `[0, 255]`) is
    rejected rather than packed. -/
theorem C10_component_type_check :
    (∀ l : List PyNum, l.length = 3 → (∃ x ∈ l, x.isInt = false) →
      rgb_to_hex l = none) ∧
    (∀ l : List PyNum, l.length = 4 → (∃ x ∈ l, x.isInt = false) →
      rgba_to_hex l = none) ∧
    rgb_to_hex [PyNum.int 0, PyNum.float 1, PyNum.int 0] = none ∧
    rgba_to_hex [PyNum.int 0, PyNum.float 1, PyNum.int 0, PyNum.int 0] = none ∧
    ((0 : ℚ) ≤ 1 ∧ (1 : ℚ) ≤ 255) := by
  refine ⟨fun l _ h => rgb_to_hex_none_of_nonint h,
    fun l _ h => rgba_to_hex_none_of_nonint h, ?_, ?_, by norm_num⟩
  · exact rgb_to_hex_none_of_nonint ⟨PyNum.float 1, by simp, rfl⟩
  · exact rgba_to_hex_none_of_nonint ⟨PyNum.float 1, by simp, rfl⟩

/-- Witness for C10 at a concrete input. -/
theorem C10_component_type_check_witness :
    rgb_to_hex [PyNum.float (1 / 2), PyNum.int 0, PyNum.int 0] = none ∧
    rgba_to_hex [PyNum.float (1 / 2), PyNum.int 0, PyNum.int 0, PyNum.int 0] = none :=
  ⟨C10_component_type_check.1 [PyNum.float (1 / 2), PyNum.int 0, PyNum.int 0] rfl
      ⟨PyNum.float (1 / 2), by simp, rfl⟩,
   C10_component_type_check.2.1
      [PyNum.float (1 / 2), PyNum.int 0, PyNum.int 0, PyNum.int 0] rfl
      ⟨PyNum.float (1 / 2), by simp, rfl⟩⟩

lemma foldl_overwrite {α β : Type} (p : α → Option β) (l : List α) (a : Option β) :
    l.foldl (fun res f => (p f).or res) a = (l.reverse.findSome? p).or a := by
  induction l generalizing a with
  | nil => simp
  | cons f fs ih =>
    rw [List.foldl_cons, ih, List.reverse_cons, List.findSome?_append, Option.or_assoc]
    congr 1
    cases h : p f <;> simp [List.findSome?_cons, h]

/-- `parse` returns the value of the LAST enabled recognizer that succeeds
    (the first success of the reversed recognizer list). -/
lemma parse_eq_findSome (tb : Tables) (cfg : ParseConfig) (colstr : List Char) :
    parse tb colstr cfg =
      (parse_funcs tb cfg).reverse.findSome? (fun f => f colstr) := by
  unfold parse
  exact (foldl_overwrite (fun f => f colstr) (parse_funcs tb cfg) none).trans
    (Option.or_none)

lemma findSome?_reverse_eq_last {α β : Type} (p : α → Option β) (l : List α)
    (j : Fin l.length) (b : β) (hj : p (l.get j) = some b)
    (hafter : ∀ k : Fin l.length, j < k → p (l.get k) = none) :
    l.reverse.findSome? p = some b := by
  have hsplit : l = l.take (j + 1) ++ l.drop (j + 1) := (List.take_append_drop _ l).symm
  conv_lhs => rw [hsplit]
  rw [List.reverse_append, List.findSome?_append]
  have hdrop : (l.drop (j + 1)).reverse.findSome? p = none := by
    rw [List.findSome?_eq_none_iff]
    intro x hx
    rw [List.mem_reverse] at hx
    obtain ⟨i, hi, rfl⟩ := List.mem_iff_getElem.1 hx
    rw [List.getElem_drop]
    have hlt : j + 1 + i < l.length := by
      have := List.length_drop (j + 1) l ▸ hi
      omega
    exact hafter ⟨j + 1 + i, hlt⟩ (by simp [Fin.lt_def]; omega)
  rw [hdrop, Option.none_or]
  have htake : l.take (j + 1) = l.take j ++ [l.get j] := by
    rw [List.take_succ]
    congr 1
    rw [List.getElem?_eq_getElem j.isLt]
    rfl
  rw [htake, List.reverse_append, List.reverse_singleton, List.singleton_append,
    List.findSome?_cons, hj]

/-- C1: `parse` invokes every enabled recognizer in the fixed canonical
    order without short-circuiting, treats each recognizer failure as
    abstention, returns the value of the last enabled recognizer that
    succeeds (a later success overwrites an earlier one), and fails exactly
    when no enabled recognizer succeeds. -/
theorem C1_resolver_last_success_wins (tb : Tables) (cfg : ParseConfig)
    (colstr : List Char) :
    parse tb colstr cfg =
      (parse_funcs tb cfg).reverse.findSome? (fun f => f colstr) ∧
    (parse tb colstr cfg = none ↔ ∀ f ∈ parse_funcs tb cfg, f colstr = none) ∧
    (∀ (i j : Fin (parse_funcs tb cfg).length) (ti tj : Nat × Nat × Nat), i < j →
      ((parse_funcs tb cfg).get i) colstr = some ti →
      ((parse_funcs tb cfg).get j) colstr = some tj →
      (∀ k : Fin (parse_funcs tb cfg).length, j < k →
        ((parse_funcs tb cfg).get k) colstr = none) →
      parse tb colstr cfg = some tj) := by
  refine ⟨parse_eq_findSome tb cfg colstr, ?_, ?_⟩
  · rw [parse_eq_findSome, List.findSome?_eq_none_iff]
    constructor
    · intro h f hf
      exact h f (List.mem_reverse.2 hf)
    · intro h f hf
      exact h f (List.mem_reverse.1 hf)
  · intro i j ti tj hij hi hj hafter
    rw [parse_eq_findSome]
    exact findSome?_reverse_eq_last _ _ j tj hj hafter

/-- Witness for C1: with `"red"` a key of both the css table (value
    `"ff0000"`) and the meodai table (value `"0000ff"`), resolving `"red"`
    returns the meodai (later) value, not the css one. -/
theorem C1_resolver_last_success_wins_witness :
    parse ⟨[("red".data, "ff0000".data)], [], [], [],
        [("red".data, "0000ff".data)]⟩ "red".data ParseConfig.allOn =
      some (0, 0, 255) :=
  (C1_resolver_last_success_wins _ ParseConfig.allOn "red".data).2.2
    ⟨5, by decide⟩ ⟨9, by decide⟩ (255, 0, 0) (0, 0, 255) (by decide) (by decide)
    (by decide)
    (fun k hk => absurd hk (Nat.not_lt.mpr (Nat.le_of_lt_succ k.isLt)))

lemma hex_digit_val_lt {c : Char} (h : is_hex_digit c = true) : hex_digit_val c < 16 := by
  have h0 : '0'.toNat = 48 := rfl
  have ha : 'a'.toNat = 97 := rfl
  have hA : 'A'.toNat = 65 := rfl
  rw [is_hex_digit, Bool.or_eq_true, Bool.or_eq_true] at h
  rw [hex_digit_val]
  by_cases hd : c.isDigit = true
  · rw [if_pos hd]
    simp only [Char.isDigit, ge_iff_le, Bool.and_eq_true, decide_eq_true_eq] at hd
    have hb : 48 ≤ c.toNat ∧ c.toNat ≤ 57 := hd
    omega
  · rw [if_neg hd]
    by_cases hl : ('a' ≤ c && c ≤ 'f') = true
    · rw [if_pos hl]
      simp only [Bool.and_eq_true, decide_eq_true_eq] at hl
      have hb : 97 ≤ c.toNat ∧ c.toNat ≤ 102 := hl
      omega
    · rw [if_neg hl]
      rcases h with (hd' | hl') | hu
      · exact absurd hd' hd
      · exact absurd hl' hl
      · simp only [Bool.and_eq_true, decide_eq_true_eq] at hu
        have hb : 65 ≤ c.toNat ∧ c.toNat ≤ 70 := hu
        omega

lemma hex_foldl_lt (u : List Char) (acc : Nat) (h : ∀ c ∈ u, is_hex_digit c = true) :
    u.foldl (fun a c => a * 16 + hex_digit_val c) acc < (acc + 1) * 16 ^ u.length := by
  induction u generalizing acc with
  | nil => simpa using Nat.lt_succ_self acc
  | cons c cs ih =>
    rw [List.foldl_cons, List.length_cons, pow_succ]
    have hc : hex_digit_val c < 16 := hex_digit_val_lt (h c (List.mem_cons_self c cs))
    have h2 := ih (acc * 16 + hex_digit_val c) fun d hd => h d (List.mem_cons_of_mem c hd)
    refine lt_of_lt_of_le h2 ?_
    have hle : acc * 16 + hex_digit_val c + 1 ≤ (acc + 1) * 16 := by omega
    calc (acc * 16 + hex_digit_val c + 1) * 16 ^ cs.length
        ≤ (acc + 1) * 16 * 16 ^ cs.length := Nat.mul_le_mul_right _ hle
      _ = (acc + 1) * (16 ^ cs.length * 16) := by ring

lemma hex_to_nat_lt {u : List Char} (h : u.all is_hex_digit = true) :
    hex_to_nat u < 16 ^ u.length := by
  rw [List.all_eq_true] at h
  have := hex_foldl_lt u 0 h
  simpa using this

lemma hex_to_rgb_nat_isSome {n : Nat} (h : n ≤ 0xFFFFFF) :
    (hex_to_rgb (n : Int)).isSome = true := by
  rw [hex_to_rgb_of_le (by positivity) (by exact_mod_cast h)]
  rfl

lemma parse_hex6_of_match {s : List Char} (hlen : (strip_hash s).length = 6)
    (hhex : (strip_hash s).all is_hex_digit = true) :
    parse_hex6 s = hex_to_rgb (hex_to_nat (strip_hash s)) := by
  rw [parse_hex6, if_pos ⟨hlen, hhex⟩]

lemma parse_hex6_isSome_iff (s : List Char) :
    (parse_hex6 s).isSome = true ↔
      (strip_hash s).length = 6 ∧ (strip_hash s).all is_hex_digit = true := by
  constructor
  · intro h
    rw [parse_hex6] at h
    by_cases hc : (strip_hash s).length = 6 ∧ (strip_hash s).all is_hex_digit = true
    · exact hc
    · rw [if_neg hc] at h
      simp at h
  · intro ⟨hlen, hhex⟩
    rw [parse_hex6_of_match hlen hhex]
    have : hex_to_nat (strip_hash s) ≤ 0xFFFFFF := by
      have := hex_to_nat_lt hhex
      rw [hlen] at this
      omega
    exact hex_to_rgb_nat_isSome this

lemma hash_not_hex : is_hex_digit '#' = false := by decide

lemma strip_hash_cases (s : List Char) :
    py_strip s = strip_hash s ∨ py_strip s = '#' :: strip_hash s := by
  simp only [strip_hash]
  cases hs : py_strip s with
  | nil => simp
  | cons c t =>
    by_cases hc : c = '#'
    · subst hc
      simp
    · simp [hc]

lemma strip_hash_of_no_hash {s u : List Char} (h : py_strip s = u)
    (hu : u.head? ≠ some '#') : strip_hash s = u := by
  simp only [strip_hash, h, if_neg hu]

lemma strip_hash_of_hash {s u : List Char} (h : py_strip s = '#' :: u) :
    strip_hash s = u := by
  simp [strip_hash, h]

lemma head_not_hash_of_all_hex {u : List Char} (h : u.all is_hex_digit = true) :
    u.head? ≠ some '#' := by
  cases u with
  | nil => simp
  | cons c t =>
    simp only [List.all_cons, Bool.and_eq_true] at h
    simp only [List.head?_cons, ne_eq, Option.some_inj]
    intro hc
    rw [hc] at h
    exact absurd h.1 (by rw [hash_not_hex]; simp)

/-- C6: `parse_hex6` succeeds exactly on inputs whose stripped form is an
    optional `#` followed by exactly 6 hex digits (either case), in which
    case it decodes them with `int(_, 16)` and delegates to `hex_to_rgb`;
    otherwise it fails. Includes the spec's examples. -/
theorem C6_hex6_recognizer :
    parse_hex6 "#AB34DF".data = some (171, 52, 223) ∧
    parse_hex6 "ab34df".data = some (171, 52, 223) ∧
    parse_hex6 "ab34d".data = none ∧
    (∀ s : List Char, (parse_hex6 s).isSome = true ↔
      ∃ u : List Char, (py_strip s = u ∨ py_strip s = '#' :: u) ∧
        u.length = 6 ∧ u.all is_hex_digit = true) ∧
    (∀ s u : List Char, (py_strip s = u ∨ py_strip s = '#' :: u) → u.length = 6 →
      u.all is_hex_digit = true → parse_hex6 s = hex_to_rgb (hex_to_nat u)) := by
  refine ⟨by decide, by decide, by decide, ?_, ?_⟩
  · intro s
    rw [parse_hex6_isSome_iff]
    constructor
    · intro ⟨hlen, hhex⟩
      exact ⟨strip_hash s, strip_hash_cases s, hlen, hhex⟩
    · intro ⟨u, hu, hlen, hhex⟩
      rcases hu with hu | hu
      · rw [strip_hash_of_no_hash hu (head_not_hash_of_all_hex hhex)]
        exact ⟨hlen, hhex⟩
      · rw [strip_hash_of_hash hu]
        exact ⟨hlen, hhex⟩
  · intro s u hu hlen hhex
    have he : strip_hash s = u := by
      rcases hu with hu | hu
      · exact strip_hash_of_no_hash hu (head_not_hash_of_all_hex hhex)
      · exact strip_hash_of_hash hu
    rw [parse_hex6_of_match (he ▸ hlen) (he ▸ hhex), he]

/-- Witness for C6 at a concrete input. -/
theorem C6_hex6_recognizer_witness :
    (parse_hex6 " #0aBF12 ".data).isSome = true ∧
    parse_hex6 " #0aBF12 ".data = hex_to_rgb (hex_to_nat "0aBF12".data) :=
  ⟨(C6_hex6_recognizer.2.2.2.1 " #0aBF12 ".data).2
      ⟨"0aBF12".data, by decide, by decide, by decide⟩,
   C6_hex6_recognizer.2.2.2.2 " #0aBF12 ".data "0aBF12".data (by decide) (by decide)
     (by decide)⟩

lemma hex_to_nat_dup (a : Char) : hex_to_nat [a, a] = 17 * hex_digit_val a := by
  simp only [hex_to_nat, List.foldl_cons, List.foldl_nil]
  omega

lemma parse_hex3_eq_of_shape {s : List Char} {a b c : Char}
    (hm : strip_hash s = [a, b, c]) :
    parse_hex3 s =
      (if is_hex_digit a ∧ is_hex_digit b ∧ is_hex_digit c then
        some (hex_to_nat [a, a], hex_to_nat [b, b], hex_to_nat [c, c]) else none) := by
  rw [parse_hex3.eq_def, hm]

lemma parse_hex3_none_of_shape {s : List Char} (hm : (strip_hash s).length ≠ 3) :
    parse_hex3 s = none := by
  rw [parse_hex3.eq_def]
  rcases hx : strip_hash s with _ | ⟨a, _ | ⟨b, _ | ⟨c, _ | ⟨d, t⟩⟩⟩⟩ <;>
    first
      | rfl
      | exact absurd (by rw [hx]; rfl) hm

lemma parse_hex3_isSome_iff (s : List Char) :
    (parse_hex3 s).isSome = true ↔
      (strip_hash s).length = 3 ∧ (strip_hash s).all is_hex_digit = true := by
  by_cases hm : (strip_hash s).length = 3
  · obtain ⟨a, b, c, hx⟩ := List.length_eq_three.1 hm
    rw [parse_hex3_eq_of_shape hx, hx]
    split_ifs with h
    · simp only [Option.isSome_some, true_iff]
      refine ⟨rfl, ?_⟩
      simp [List.all_cons, h.1, h.2.1, h.2.2]
    · simp only [Option.isSome_none, Bool.false_eq_true, false_iff]
      intro hc
      obtain ⟨-, hall⟩ := hc
      simp only [List.all_cons, List.all_nil, Bool.and_true, Bool.and_eq_true] at hall
      exact h ⟨hall.1, hall.2.1, hall.2.2⟩
  · rw [parse_hex3_none_of_shape hm]
    simp [hm]

/-- C7: `parse_hex3` succeeds exactly on inputs whose stripped form is an
    optional `#` followed by exactly 3 hex digits, producing the Triple of
    nibble-doubled digits (each digit `d` becomes the byte `17 * d`, i.e.
    `dd` in hex); any other input fails. Includes the spec's example. -/
theorem C7_hex3_recognizer :
    parse_hex3 "#a3d".data = some (170, 51, 221) ∧
    (∀ s : List Char, (parse_hex3 s).isSome = true ↔
      ∃ u : List Char, (py_strip s = u ∨ py_strip s = '#' :: u) ∧ u.length = 3 ∧
        u.all is_hex_digit = true) ∧
    (∀ (s : List Char) (a b c : Char),
      (py_strip s = [a, b, c] ∨ py_strip s = '#' :: [a, b, c]) →
      is_hex_digit a = true → is_hex_digit b = true → is_hex_digit c = true →
      parse_hex3 s =
        some (17 * hex_digit_val a, 17 * hex_digit_val b, 17 * hex_digit_val c)) := by
  refine ⟨by decide, ?_, ?_⟩
  · intro s
    rw [parse_hex3_isSome_iff]
    constructor
    · intro ⟨hlen, hhex⟩
      exact ⟨strip_hash s, strip_hash_cases s, hlen, hhex⟩
    · intro ⟨u, hu, hlen, hhex⟩
      rcases hu with hu | hu
      · rw [strip_hash_of_no_hash hu (head_not_hash_of_all_hex hhex)]
        exact ⟨hlen, hhex⟩
      · rw [strip_hash_of_hash hu]
        exact ⟨hlen, hhex⟩
  · intro s a b c hu ha hb hc
    have hhex : ([a, b, c] : List Char).all is_hex_digit = true := by
      simp [List.all_cons, ha, hb, hc]
    have he : strip_hash s = [a, b, c] := by
      rcases hu with hu | hu
      · exact strip_hash_of_no_hash hu (head_not_hash_of_all_hex hhex)
      · exact strip_hash_of_hash hu
    rw [parse_hex3_eq_of_shape he, if_pos ⟨ha, hb, hc⟩, hex_to_nat_dup, hex_to_nat_dup,
      hex_to_nat_dup]

/-- Witness for C7 at a concrete input. -/
theorem C7_hex3_recognizer_witness :
    (parse_hex3 " #A3d ".data).isSome = true ∧
    parse_hex3 " #A3d ".data =
      some (17 * hex_digit_val 'A', 17 * hex_digit_val '3', 17 * hex_digit_val 'd') :=
  ⟨(C7_hex3_recognizer.2.1 " #A3d ".data).2
      ⟨"A3d".data, by decide, by decide, by decide⟩,
   C7_hex3_recognizer.2.2 " #A3d ".data 'A' '3' 'd' (by decide) (by decide) (by decide)
     (by decide)⟩

lemma parse_rgbfunc_int_of_scan {s : List Char} {a b c : Nat}
    (h : scan_rgbfunc scan_int_1to3 (py_strip s) = some (a, b, c)) :
    parse_rgbfunc_int s =
      (if a > 255 ∨ b > 255 ∨ c > 255 then none else some (a, b, c)) := by
  rw [parse_rgbfunc_int.eq_def, h]

lemma parse_rgbfunc_float_of_scan {s : List Char} {a b c : Dec}
    (h : scan_rgbfunc scan_float01 (py_strip s) = some (a, b, c)) :
    parse_rgbfunc_float s =
      (if a.num > a.den ∨ b.num > b.den ∨ c.num > c.den then none
       else some (a.mul255_round, b.mul255_round, c.mul255_round)) := by
  rw [parse_rgbfunc_float.eq_def, h]

lemma parse_rgbfunc_percent_of_scan {s : List Char} {a b c : Dec}
    (h : scan_rgbfunc scan_percent_num (py_strip s) = some (a, b, c)) :
    parse_rgbfunc_percent s =
      (if a.num > 100 * a.den ∨ b.num > 100 * b.den ∨ c.num > 100 * c.den then none
       else some (a.percent255_round, b.percent255_round, c.percent255_round)) := by
  rw [parse_rgbfunc_percent.eq_def, h]

/-- C5: the three functional notations. `parse_rgbfunc_int` returns the three
    scanned 1–3 digit integers directly, failing when one exceeds 255;
    `parse_rgbfunc_float` fails when a value exceeds 1 (numerator over
    denominator) and otherwise scales each by 255 and rounds to the nearest
    integer; `parse_rgbfunc_percent` fails when a value exceeds 100 and
    otherwise scales each by 255/100 and rounds. Includes the spec's
    examples. -/
theorem C5_rgbfunc_recognizers :
    parse_rgbfunc_int "rgb(171, 52, 223)".data = some (171, 52, 223) ∧
    parse_rgbfunc_int "rgb(256,0,0)".data = none ∧
    parse_rgbfunc_float "rgb(0.67,0.2,0.87)".data = some (171, 51, 222) ∧
    parse_rgbfunc_percent "rgb(67%,20%,87.5%)".data = some (171, 51, 223) ∧
    (∀ (s : List Char) (a b c : Nat),
      scan_rgbfunc scan_int_1to3 (py_strip s) = some (a, b, c) →
      ((a > 255 ∨ b > 255 ∨ c > 255) → parse_rgbfunc_int s = none) ∧
      (a ≤ 255 → b ≤ 255 → c ≤ 255 → parse_rgbfunc_int s = some (a, b, c))) ∧
    (∀ (s : List Char) (a b c : Dec),
      scan_rgbfunc scan_float01 (py_strip s) = some (a, b, c) →
      ((a.num > a.den ∨ b.num > b.den ∨ c.num > c.den) →
        parse_rgbfunc_float s = none) ∧
      (a.num ≤ a.den → b.num ≤ b.den → c.num ≤ c.den →
        parse_rgbfunc_float s =
          some (round_half_even (a.num * 255) a.den, round_half_even (b.num * 255) b.den,
            round_half_even (c.num * 255) c.den))) ∧
    (∀ (s : List Char) (a b c : Dec),
      scan_rgbfunc scan_percent_num (py_strip s) = some (a, b, c) →
      ((a.num > 100 * a.den ∨ b.num > 100 * b.den ∨ c.num > 100 * c.den) →
        parse_rgbfunc_percent s = none) ∧
      (a.num ≤ 100 * a.den → b.num ≤ 100 * b.den → c.num ≤ 100 * c.den →
        parse_rgbfunc_percent s =
          some (round_half_even (a.num * 255) (a.den * 100),
            round_half_even (b.num * 255) (b.den * 100),
            round_half_even (c.num * 255) (c.den * 100)))) := by
  refine ⟨by decide, by decide, by decide, by decide, ?_, ?_, ?_⟩
  · intro s a b c h
    rw [parse_rgbfunc_int_of_scan h]
    constructor
    · intro hr
      rw [if_pos hr]
    · intro ha hb hc
      rw [if_neg (by omega)]
  · intro s a b c h
    rw [parse_rgbfunc_float_of_scan h]
    constructor
    · intro hr
      rw [if_pos hr]
    · intro ha hb hc
      rw [if_neg (by omega)]
      rfl
  · intro s a b c h
    rw [parse_rgbfunc_percent_of_scan h]
    constructor
    · intro hr
      rw [if_pos hr]
    · intro ha hb hc
      rw [if_neg (by omega)]
      rfl

/-- Witness for C5 at concrete inputs. -/
theorem C5_rgbfunc_recognizers_witness :
    parse_rgbfunc_int "rgb(300,0,0)".data = none ∧
    parse_rgbfunc_float "rgb(1.5,0.5,0.5)".data = none ∧
    parse_rgbfunc_float "rgb(0.5,0.5,0.5)".data = some (128, 128, 128) ∧
    parse_rgbfunc_percent "rgb(120%,0%,0%)".data = none :=
  ⟨(C5_rgbfunc_recognizers.2.2.2.2.1 "rgb(300,0,0)".data 300 0 0 (by decide)).1
      (by decide),
   (C5_rgbfunc_recognizers.2.2.2.2.2.1 "rgb(1.5,0.5,0.5)".data ⟨15, 1⟩ ⟨5, 1⟩ ⟨5, 1⟩
      (by decide)).1 (by decide),
   by
    rw [(C5_rgbfunc_recognizers.2.2.2.2.2.1 "rgb(0.5,0.5,0.5)".data ⟨5, 1⟩ ⟨5, 1⟩
      ⟨5, 1⟩ (by decide)).2 (by decide) (by decide) (by decide)]
    decide,
   (C5_rgbfunc_recognizers.2.2.2.2.2.2 "rgb(120%,0%,0%)".data ⟨120, 0⟩ ⟨0, 0⟩ ⟨0, 0⟩
      (by decide)).1 (by decide)⟩

lemma dropWhile_head_false (p : α → Bool) (l : List α) {c : α}
    (h : (l.dropWhile p).head? = some c) : p c = false := by
  have := List.head?_dropWhile_not p l
  rw [h] at this
  exact this

lemma dropWhile_eq_self_of_head {α : Type} {p : α → Bool} {l : List α}
    (h : ∀ c, l.head? = some c → p c = false) : l.dropWhile p = l := by
  cases l with
  | nil => rfl
  | cons a t =>
    rw [List.dropWhile_cons, h a rfl]
    simp

lemma strip_head_false {s : List Char} {c : Char} (h : (py_strip s).head? = some c) :
    py_isspace c = false := by
  have hsplit :
      s.dropWhile py_isspace =
        py_strip s ++ ((s.dropWhile py_isspace).reverse.takeWhile py_isspace).reverse := by
    rw [py_strip]
    rw [← List.reverse_append, List.takeWhile_append_dropWhile, List.reverse_reverse]
  refine dropWhile_head_false py_isspace s ?_
  rw [hsplit, List.head?_append, h]
  rfl

lemma strip_rev_head_false {s : List Char} {c : Char}
    (h : (py_strip s).reverse.head? = some c) : py_isspace c = false := by
  rw [py_strip, List.reverse_reverse] at h
  exact dropWhile_head_false py_isspace _ h

lemma strip_idem (s : List Char) : py_strip (py_strip s) = py_strip s := by
  have h1 : (py_strip s).dropWhile py_isspace = py_strip s :=
    dropWhile_eq_self_of_head fun c hc => strip_head_false hc
  have h2 : (py_strip s).reverse.dropWhile py_isspace = (py_strip s).reverse :=
    dropWhile_eq_self_of_head fun c hc => strip_rev_head_false hc
  calc py_strip (py_strip s)
      = ((py_strip s).reverse.dropWhile py_isspace).reverse := by rw [py_strip, h1]
    _ = py_strip s := by rw [h2, List.reverse_reverse]

lemma strip_hash_strip (s : List Char) : strip_hash (py_strip s) = strip_hash s := by
  rw [strip_hash, strip_hash, strip_idem]

/-- Counterexample to C2 as stated: with a table containing the key `"red"`
    (value `"ff0000"`), the input `" red "` has trimmed, lowercased form
    `"red"`, which IS a key of the table (and its value parses under hex6),
    yet the name recognizer fails — the source lowercases but never trims. -/
theorem C2_name_recognizer_counterexample :
    py_strip (py_lower " red ".data) = "red".data ∧
    List.lookup "red".data [("red".data, "ff0000".data)] = some "ff0000".data ∧
    parse_hex6 "ff0000".data = some (255, 0, 0) ∧
    parse_name [("red".data, "ff0000".data)] " red ".data = none := by
  refine ⟨by decide, by decide, by decide, by decide⟩

/-- C2 (amended): the five pure-grammar recognizers trim leading/trailing
    whitespace before matching (parsing the trimmed input gives the same
    result); the five name recognizers do NOT trim: each lowercases its
    input and succeeds by delegating the looked-up value to `parse_hex6`
    exactly when the lowercased (untrimmed) input is a key of its table,
    failing with `UnknownName` otherwise. -/
theorem C2_trimming_and_name_lookup :
    (∀ s : List Char, parse_hex6 (py_strip s) = parse_hex6 s) ∧
    (∀ s : List Char, parse_hex3 (py_strip s) = parse_hex3 s) ∧
    (∀ s : List Char, parse_rgbfunc_int (py_strip s) = parse_rgbfunc_int s) ∧
    (∀ s : List Char, parse_rgbfunc_float (py_strip s) = parse_rgbfunc_float s) ∧
    (∀ s : List Char, parse_rgbfunc_percent (py_strip s) = parse_rgbfunc_percent s) ∧
    (∀ (table : Table) (name v : List Char),
      table.lookup (py_lower name) = some v → parse_name table name = parse_hex6 v) ∧
    (∀ (table : Table) (name : List Char),
      table.lookup (py_lower name) = none → parse_name table name = none) := by
  refine ⟨?_, ?_, ?_, ?_, ?_, ?_, ?_⟩
  · intro s
    rw [parse_hex6, parse_hex6, strip_hash_strip]
  · intro s
    rw [parse_hex3.eq_def, parse_hex3.eq_def, strip_hash_strip]
  · intro s
    rw [parse_rgbfunc_int.eq_def, parse_rgbfunc_int.eq_def, strip_idem]
  · intro s
    rw [parse_rgbfunc_float.eq_def, parse_rgbfunc_float.eq_def, strip_idem]
  · intro s
    rw [parse_rgbfunc_percent.eq_def, parse_rgbfunc_percent.eq_def, strip_idem]
  · intro table name v h
    rw [parse_name.eq_def, h]
  · intro table name h
    rw [parse_name.eq_def, h]

/-- Witness for C2 (amended) at concrete inputs. -/
theorem C2_trimming_and_name_lookup_witness :
    parse_hex6 (py_strip "  #ab34df ".data) = parse_hex6 "  #ab34df ".data ∧
    parse_name [("red".data, "ff0000".data)] "RED".data = parse_hex6 "ff0000".data ∧
    parse_name [("red".data, "ff0000".data)] "blue".data = none :=
  ⟨C2_trimming_and_name_lookup.1 "  #ab34df ".data,
   C2_trimming_and_name_lookup.2.2.2.2.2.1 [("red".data, "ff0000".data)] "RED".data
     "ff0000".data (by decide),
   C2_trimming_and_name_lookup.2.2.2.2.2.2 [("red".data, "ff0000".data)] "blue".data
     (by decide)⟩

/-- All three components of a Triple are bytes. -/
def bounded (t : Nat × Nat × Nat) : Prop := t.1 ≤ 255 ∧ t.2.1 ≤ 255 ∧ t.2.2 ≤ 255

lemma div_lt_of_mod_pos {a b m : Nat} (hb : 0 < b) (ha : a ≤ m * b) (hr : 0 < a % b) :
    a / b < m := by
  have hdm : b * (a / b) + a % b = a := Nat.div_add_mod a b
  have h2 : b * (a / b) < b * m := by
    calc b * (a / b) < b * (a / b) + a % b := Nat.lt_add_of_pos_right hr
      _ = a := hdm
      _ ≤ m * b := ha
      _ = b * m := Nat.mul_comm m b
  exact Nat.lt_of_mul_lt_mul_left h2

lemma round_half_even_le {a b m : Nat} (hb : 0 < b) (ha : a ≤ m * b) :
    round_half_even a b ≤ m := by
  have hq : a / b ≤ m := by
    have h : a / b ≤ m * b / b := Nat.div_le_div_right ha
    rwa [Nat.mul_div_cancel _ hb] at h
  rw [round_half_even]
  split_ifs with h1 h2 h3
  · exact hq
  · exact div_lt_of_mod_pos hb ha (by omega)
  · exact hq
  · exact div_lt_of_mod_pos hb ha (by omega)

lemma hex_to_rgb_bounded {n : Int} {t : Nat × Nat × Nat} (h : hex_to_rgb n = some t) :
    bounded t := by
  rw [hex_to_rgb] at h
  split_ifs at h with hc
  rw [Option.some_inj] at h
  subst h
  have hn : n.toNat ≤ 0xFFFFFF := by omega
  simp only [bounded, Nat.shiftRight_eq_div_pow]
  omega

lemma parse_hex6_bounded {s : List Char} {t : Nat × Nat × Nat}
    (h : parse_hex6 s = some t) : bounded t := by
  rw [parse_hex6] at h
  split_ifs at h with hc
  exact hex_to_rgb_bounded h

lemma parse_hex3_bounded {s : List Char} {t : Nat × Nat × Nat}
    (h : parse_hex3 s = some t) : bounded t := by
  by_cases hm : (strip_hash s).length = 3
  · obtain ⟨a, b, c, hx⟩ := List.length_eq_three.1 hm
    rw [parse_hex3_eq_of_shape hx] at h
    split_ifs at h with hc
    rw [Option.some_inj] at h
    subst h
    obtain ⟨ha, hb, hcc⟩ := hc
    have va := hex_digit_val_lt ha
    have vb := hex_digit_val_lt hb
    have vc := hex_digit_val_lt hcc
    simp only [bounded, hex_to_nat_dup]
    omega
  · rw [parse_hex3_none_of_shape hm] at h
    exact absurd h (by simp)

lemma parse_rgbfunc_int_bounded {s : List Char} {t : Nat × Nat × Nat}
    (h : parse_rgbfunc_int s = some t) : bounded t := by
  rw [parse_rgbfunc_int.eq_def] at h
  split at h
  · split_ifs at h with hc
    rw [Option.some_inj] at h
    subst h
    simp only [bounded]
    omega
  · exact absurd h (by simp)

lemma parse_rgbfunc_float_bounded {s : List Char} {t : Nat × Nat × Nat}
    (h : parse_rgbfunc_float s = some t) : bounded t := by
  rw [parse_rgbfunc_float.eq_def] at h
  split at h
  · split_ifs at h with hc
    rw [Option.some_inj] at h
    subst h
    push_neg at hc
    simp only [bounded, Dec.mul255_round]
    refine ⟨?_, ?_, ?_⟩ <;>
      exact round_half_even_le (by rw [Dec.den]; positivity) (by omega)
  · exact absurd h (by simp)

lemma parse_rgbfunc_percent_bounded {s : List Char} {t : Nat × Nat × Nat}
    (h : parse_rgbfunc_percent s = some t) : bounded t := by
  rw [parse_rgbfunc_percent.eq_def] at h
  split at h
  · split_ifs at h with hc
    rw [Option.some_inj] at h
    subst h
    push_neg at hc
    simp only [bounded, Dec.percent255_round]
    refine ⟨?_, ?_, ?_⟩ <;>
      exact round_half_even_le (by rw [Dec.den]; positivity) (by omega)
  · exact absurd h (by simp)

lemma parse_name_bounded {table : Table} {s : List Char} {t : Nat × Nat × Nat}
    (h : parse_name table s = some t) : bounded t := by
  rw [parse_name.eq_def] at h
  split at h
  · exact parse_hex6_bounded h
  · exact absurd h (by simp)

lemma parse_funcs_mem {tb : Tables} {cfg : ParseConfig}
    {f : List Char → Option (Nat × Nat × Nat)} (h : f ∈ parse_funcs tb cfg) :
    f = parse_hex6 ∨ f = parse_hex3 ∨ f = parse_rgbfunc_int ∨
    f = parse_rgbfunc_float ∨ f = parse_rgbfunc_percent ∨ f = parse_name tb.css ∨
    f = parse_name tb.crayola ∨ f = parse_name tb.xkcd ∨
    f = parse_name tb.meodai_best ∨ f = parse_name tb.meodai := by
  rw [parse_funcs] at h
  simp only [List.mem_append, List.mem_ite_nil_right, List.mem_singleton] at h
  rcases h with
    (((((((((h | h) | h) | h) | h) | h) | h) | h) | h) | h)
  · exact Or.inl h.2
  · exact Or.inr (Or.inl h.2)
  · exact Or.inr (Or.inr (Or.inl h.2))
  · exact Or.inr (Or.inr (Or.inr (Or.inl h.2)))
  · exact Or.inr (Or.inr (Or.inr (Or.inr (Or.inl h.2))))
  · exact Or.inr (Or.inr (Or.inr (Or.inr (Or.inr (Or.inl h.2)))))
  · exact Or.inr (Or.inr (Or.inr (Or.inr (Or.inr (Or.inr (Or.inl h.2))))))
  · exact Or.inr (Or.inr (Or.inr (Or.inr (Or.inr (Or.inr (Or.inr (Or.inl h.2)))))))
  · exact Or.inr (Or.inr (Or.inr (Or.inr (Or.inr (Or.inr (Or.inr (Or.inr
      (Or.inl h.2))))))))
  · exact Or.inr (Or.inr (Or.inr (Or.inr (Or.inr (Or.inr (Or.inr (Or.inr
      (Or.inr h.2))))))))

lemma parse_bounded {tb : Tables} {cfg : ParseConfig} {s : List Char}
    {t : Nat × Nat × Nat} (h : parse tb s cfg = some t) : bounded t := by
  rw [parse_eq_findSome] at h
  obtain ⟨f, hf, hfs⟩ := List.exists_of_findSome?_eq_some h
  rw [List.mem_reverse] at hf
  rcases parse_funcs_mem hf with rfl | rfl | rfl | rfl | rfl | rfl | rfl | rfl | rfl | rfl
  · exact parse_hex6_bounded hfs
  · exact parse_hex3_bounded hfs
  · exact parse_rgbfunc_int_bounded hfs
  · exact parse_rgbfunc_float_bounded hfs
  · exact parse_rgbfunc_percent_bounded hfs
  · exact parse_name_bounded hfs
  · exact parse_name_bounded hfs
  · exact parse_name_bounded hfs
  · exact parse_name_bounded hfs
  · exact parse_name_bounded hfs

lemma rgb_to_hex_le {l : List PyNum} {h : Nat} (he : rgb_to_hex l = some h) :
    h ≤ 0xFFFFFF := by
  rw [rgb_to_hex.eq_def] at he
  split_ifs at he with hc
  · obtain ⟨h1, h2⟩ := hc
    obtain ⟨x, y, z, rfl⟩ := List.length_eq_three.1 h2
    rw [List.all_eq_true] at h1
    have hx := h1 x (by simp)
    have hy := h1 y (by simp)
    have hz := h1 z (by simp)
    rw [valid_byte, Bool.and_eq_true, Bool.and_eq_true] at hx hy hz
    simp only [decide_eq_true_eq] at hx hy hz
    simp only [Option.some_inj] at he
    rw [pack3_eq x.intVal.toNat (by omega) (by omega)] at he
    omega

lemma rgba_to_hex_le {l : List PyNum} {h : Nat} (he : rgba_to_hex l = some h) :
    h ≤ 0xFFFFFFFF := by
  rw [rgba_to_hex.eq_def] at he
  split_ifs at he with hc
  · obtain ⟨h1, h2⟩ := hc
    obtain ⟨x, y, z, w, rfl⟩ := exists_of_length_four h2
    rw [List.all_eq_true] at h1
    have hx := h1 x (by simp)
    have hy := h1 y (by simp)
    have hz := h1 z (by simp)
    have hw := h1 w (by simp)
    rw [valid_byte, Bool.and_eq_true, Bool.and_eq_true] at hx hy hz hw
    simp only [decide_eq_true_eq] at hx hy hz hw
    simp only [Option.some_inj] at he
    rw [pack4_eq x.intVal.toNat (by omega) (by omega) (by omega)] at he
    omega

/-- C8: every Triple produced by any of the ten recognizers or by the
    resolver has all components in `[0, 255]` (components are naturals, so
    nonnegativity is inherent), and every Hex Integer consumed or produced
    by the canonical conversions lies within its declared bit range. -/
theorem C8_range_invariants :
    (∀ (s : List Char) (t : Nat × Nat × Nat), parse_hex6 s = some t → bounded t) ∧
    (∀ (s : List Char) (t : Nat × Nat × Nat), parse_hex3 s = some t → bounded t) ∧
    (∀ (s : List Char) (t : Nat × Nat × Nat), parse_rgbfunc_int s = some t →
      bounded t) ∧
    (∀ (s : List Char) (t : Nat × Nat × Nat), parse_rgbfunc_float s = some t →
      bounded t) ∧
    (∀ (s : List Char) (t : Nat × Nat × Nat), parse_rgbfunc_percent s = some t →
      bounded t) ∧
    (∀ (table : Table) (s : List Char) (t : Nat × Nat × Nat),
      parse_name table s = some t → bounded t) ∧
    (∀ (tb : Tables) (cfg : ParseConfig) (s : List Char) (t : Nat × Nat × Nat),
      parse tb s cfg = some t → bounded t) ∧
    (∀ (n : Int) (t : Nat × Nat × Nat), hex_to_rgb n = some t →
      (0 ≤ n ∧ n ≤ 0xFFFFFF) ∧ bounded t) ∧
    (∀ (n : Int) (t : Nat × Nat × Nat × Nat), hex_to_rgba n = some t →
      0 ≤ n ∧ n ≤ 0xFFFFFFFF) ∧
    (∀ (l : List PyNum) (h : Nat), rgb_to_hex l = some h → h ≤ 0xFFFFFF) ∧
    (∀ (l : List PyNum) (h : Nat), rgba_to_hex l = some h → h ≤ 0xFFFFFFFF) := by
  refine ⟨fun s t h => parse_hex6_bounded h, fun s t h => parse_hex3_bounded h,
    fun s t h => parse_rgbfunc_int_bounded h, fun s t h => parse_rgbfunc_float_bounded h,
    fun s t h => parse_rgbfunc_percent_bounded h, fun tb s t h => parse_name_bounded h,
    fun tb cfg s t h => parse_bounded h, ?_, ?_,
    fun l h he => rgb_to_hex_le he, fun l h he => rgba_to_hex_le he⟩
  · intro n t h
    refine ⟨?_, hex_to_rgb_bounded h⟩
    rw [hex_to_rgb] at h
    split_ifs at h with hc
    exact hc
  · intro n t h
    rw [hex_to_rgba] at h
    split_ifs at h with hc
    exact hc

/-- Witness for C8 at concrete inputs. -/
theorem C8_range_invariants_witness :
    bounded (170, 51, 221) ∧ bounded (171, 52, 223) ∧
    ((0 : Int) ≤ 0xAB34DF ∧ (0xAB34DF : Int) ≤ 0xFFFFFF) :=
  ⟨C8_range_invariants.2.1 "#a3d".data (170, 51, 221) (by decide),
   (C8_range_invariants.2.2.2.2.2.2.1 ⟨[], [], [], [], []⟩ ParseConfig.allOn
     "#ab34df".data (171, 52, 223) (by decide)),
   (C8_range_invariants.2.2.2.2.2.2.2.1 0xAB34DF (171, 52, 223) (by decide)).1⟩

lemma digitChar_props : ∀ d < 16,
    py_isspace (Nat.digitChar d) = false ∧ is_hex_digit (Nat.digitChar d) = true ∧
    Nat.digitChar d ≠ '#' ∧ Nat.digitChar d ≠ 'r' ∧
    Char.toLower (Nat.digitChar d) = Nat.digitChar d ∧
    hex_digit_val (Nat.digitChar d) = d := by decide

lemma mem_of_head? {α : Type} {l : List α} {c : α} (h : l.head? = some c) : c ∈ l := by
  cases l with
  | nil => simp at h
  | cons a t =>
    rw [List.head?_cons, Option.some_inj] at h
    subst h
    exact List.mem_cons_self a t

lemma strip_eq_self_of_no_space {l : List Char} (h : ∀ c ∈ l, py_isspace c = false) :
    py_strip l = l := by
  rw [py_strip,
    dropWhile_eq_self_of_head (fun c hc => h c (mem_of_head? hc)),
    dropWhile_eq_self_of_head
      (fun c hc => h c (List.mem_reverse.1 (mem_of_head? hc))),
    List.reverse_reverse]

lemma to_hex6_forall {t : Nat × Nat × Nat} (hb : bounded t) (P : Char → Prop)
    (hP : ∀ d < 16, P (Nat.digitChar d)) : ∀ c ∈ to_hex6 t, P c := by
  rcases t with ⟨t1, t2, t3⟩
  have h1 : t1 ≤ 255 := hb.1
  have h2 : t2 ≤ 255 := hb.2.1
  have h3 : t3 ≤ 255 := hb.2.2
  intro c hc
  rw [to_hex6] at hc
  simp only [List.mem_cons, List.not_mem_nil, or_false] at hc
  rcases hc with rfl | rfl | rfl | rfl | rfl | rfl <;> exact hP _ (by omega)

lemma hex_to_nat_to_hex6 {t : Nat × Nat × Nat} (hb : bounded t) :
    hex_to_nat (to_hex6 t) = t.1 * 65536 + t.2.1 * 256 + t.2.2 := by
  rcases t with ⟨t1, t2, t3⟩
  have h1 : t1 ≤ 255 := hb.1
  have h2 : t2 ≤ 255 := hb.2.1
  have h3 : t3 ≤ 255 := hb.2.2
  rw [to_hex6, hex_to_nat]
  simp only [List.foldl_cons, List.foldl_nil]
  rw [(digitChar_props _ (show t1 / 16 < 16 by omega)).2.2.2.2.2,
    (digitChar_props _ (show t1 % 16 < 16 by omega)).2.2.2.2.2,
    (digitChar_props _ (show t2 / 16 < 16 by omega)).2.2.2.2.2,
    (digitChar_props _ (show t2 % 16 < 16 by omega)).2.2.2.2.2,
    (digitChar_props _ (show t3 / 16 < 16 by omega)).2.2.2.2.2,
    (digitChar_props _ (show t3 % 16 < 16 by omega)).2.2.2.2.2]
  omega

lemma py_lower_to_hex6 {t : Nat × Nat × Nat} (hb : bounded t) :
    py_lower (to_hex6 t) = to_hex6 t := by
  rcases t with ⟨t1, t2, t3⟩
  have h1 : t1 ≤ 255 := hb.1
  have h2 : t2 ≤ 255 := hb.2.1
  have h3 : t3 ≤ 255 := hb.2.2
  rw [to_hex6, py_lower]
  simp only [List.map_cons, List.map_nil, List.cons.injEq, and_true]
  refine ⟨?_, ?_, ?_, ?_, ?_, ?_⟩ <;> exact (digitChar_props _ (by omega)).2.2.2.2.1

lemma parse_hex6_to_hex6 {t : Nat × Nat × Nat} (hb : bounded t) :
    parse_hex6 (to_hex6 t) = some t := by
  have hns : ∀ c ∈ to_hex6 t, py_isspace c = false :=
    to_hex6_forall hb _ (fun d hd => (digitChar_props d hd).1)
  have hstrip := strip_eq_self_of_no_space hns
  have hhex : (to_hex6 t).all is_hex_digit = true := by
    rw [List.all_eq_true]
    exact to_hex6_forall hb _ (fun d hd => (digitChar_props d hd).2.1)
  rcases t with ⟨t1, t2, t3⟩
  have hb1 : t1 ≤ 255 := hb.1
  have hb2 : t2 ≤ 255 := hb.2.1
  have hb3 : t3 ≤ 255 := hb.2.2
  have hhead : (to_hex6 (t1, t2, t3)).head? ≠ some '#' := by
    rw [to_hex6]
    simp only [List.head?_cons, ne_eq, Option.some_inj]
    exact (digitChar_props _ (by omega)).2.2.1
  have hsh : strip_hash (to_hex6 (t1, t2, t3)) = to_hex6 (t1, t2, t3) :=
    strip_hash_of_no_hash hstrip hhead
  have hlen : (to_hex6 (t1, t2, t3)).length = 6 := by rw [to_hex6]; rfl
  rw [parse_hex6, hsh, if_pos ⟨hlen, hhex⟩, hex_to_nat_to_hex6 hb]
  rw [hex_to_rgb_of_le (by positivity) (by push_cast; omega)]
  simp only [Int.toNat_natCast, Option.some_inj, Prod.mk.injEq]
  refine ⟨?_, ?_, ?_⟩ <;> omega

lemma scan_rgbfunc_none_head {α : Type} (comp : List Char → Option (α × List Char))
    {c : Char} {rest : List Char} (hc : c ≠ 'r') :
    scan_rgbfunc comp (c :: rest) = none := by
  have he : expect_lit ['r', 'g', 'b', '('] (c :: rest) = none := by
    rw [expect_lit]
    exact if_neg (fun h => hc h.symm)
  rw [scan_rgbfunc, he]
  rfl

lemma parse_rgbfunc_int_none_head {s : List Char} {c : Char} {r : List Char}
    (hs : py_strip s = c :: r) (hc : c ≠ 'r') : parse_rgbfunc_int s = none := by
  rw [parse_rgbfunc_int.eq_def, hs, scan_rgbfunc_none_head _ hc]

lemma parse_rgbfunc_float_none_head {s : List Char} {c : Char} {r : List Char}
    (hs : py_strip s = c :: r) (hc : c ≠ 'r') : parse_rgbfunc_float s = none := by
  rw [parse_rgbfunc_float.eq_def, hs, scan_rgbfunc_none_head _ hc]

lemma parse_rgbfunc_percent_none_head {s : List Char} {c : Char} {r : List Char}
    (hs : py_strip s = c :: r) (hc : c ≠ 'r') : parse_rgbfunc_percent s = none := by
  rw [parse_rgbfunc_percent.eq_def, hs, scan_rgbfunc_none_head _ hc]

lemma parse_name_none_of_lookup {table : Table} {s : List Char} (hl : py_lower s = s)
    (hlk : table.lookup s = none) : parse_name table s = none := by
  rw [parse_name.eq_def, hl, hlk]

/-- The enabled recognizers after hex6, in canonical order. -/
def parse_funcs_tail (tb : Tables) (cfg : ParseConfig) :
    List (List Char → Option (Nat × Nat × Nat)) :=
  (if cfg.hex3 then [parse_hex3] else []) ++
  (if cfg.rgbfunc_int then [parse_rgbfunc_int] else []) ++
  (if cfg.rgbfunc_float then [parse_rgbfunc_float] else []) ++
  (if cfg.rgbfunc_percent then [parse_rgbfunc_percent] else []) ++
  (if cfg.name_css then [parse_name tb.css] else []) ++
  (if cfg.name_crayola then [parse_name tb.crayola] else []) ++
  (if cfg.name_xkcd then [parse_name tb.xkcd] else []) ++
  (if cfg.name_meodai_best then [parse_name tb.meodai_best] else []) ++
  (if cfg.name_meodai then [parse_name tb.meodai] else [])

lemma parse_funcs_split {tb : Tables} {cfg : ParseConfig} (h6 : cfg.hex6 = true) :
    parse_funcs tb cfg = parse_hex6 :: parse_funcs_tail tb cfg := by
  rw [parse_funcs, parse_funcs_tail, h6]
  simp [List.append_assoc]

lemma parse_funcs_tail_mem {tb : Tables} {cfg : ParseConfig}
    {f : List Char → Option (Nat × Nat × Nat)} (h : f ∈ parse_funcs_tail tb cfg) :
    f = parse_hex3 ∨ f = parse_rgbfunc_int ∨ f = parse_rgbfunc_float ∨
    f = parse_rgbfunc_percent ∨
    (cfg.name_css = true ∧ f = parse_name tb.css) ∨
    (cfg.name_crayola = true ∧ f = parse_name tb.crayola) ∨
    (cfg.name_xkcd = true ∧ f = parse_name tb.xkcd) ∨
    (cfg.name_meodai_best = true ∧ f = parse_name tb.meodai_best) ∨
    (cfg.name_meodai = true ∧ f = parse_name tb.meodai) := by
  rw [parse_funcs_tail] at h
  simp only [List.mem_append, List.mem_ite_nil_right, List.mem_singleton] at h
  rcases h with
    ((((((((h | h) | h) | h) | h) | h) | h) | h) | h)
  · exact Or.inl h.2
  · exact Or.inr (Or.inl h.2)
  · exact Or.inr (Or.inr (Or.inl h.2))
  · exact Or.inr (Or.inr (Or.inr (Or.inl h.2)))
  · exact Or.inr (Or.inr (Or.inr (Or.inr (Or.inl h))))
  · exact Or.inr (Or.inr (Or.inr (Or.inr (Or.inr (Or.inl h)))))
  · exact Or.inr (Or.inr (Or.inr (Or.inr (Or.inr (Or.inr (Or.inl h))))))
  · exact Or.inr (Or.inr (Or.inr (Or.inr (Or.inr (Or.inr (Or.inr (Or.inl h)))))))
  · exact Or.inr (Or.inr (Or.inr (Or.inr (Or.inr (Or.inr (Or.inr (Or.inr h)))))))

/-- Counterexample to C9 as stated: first, with a css table whose key
    `"ab34df"` looks like a hex string (value `"000000"`), `"#ab34df"`
    resolves to `(171, 52, 223)`, its canonical hex6 string is `"ab34df"`,
    but re-resolving that string under the same (all-enabled) configuration
    returns the css value `(0, 0, 0)` instead. Second, with hex6 disabled,
    `"#a3d"` resolves via hex3 to `(170, 51, 221)` but its canonical hex6
    string `"aa33dd"` does not resolve at all. -/
theorem C9_idempotence_counterexample :
    parse ⟨[("ab34df".data, "000000".data)], [], [], [], []⟩ "#ab34df".data
      ParseConfig.allOn = some (171, 52, 223) ∧
    to_hex6 (171, 52, 223) = "ab34df".data ∧
    parse ⟨[("ab34df".data, "000000".data)], [], [], [], []⟩ "ab34df".data
      ParseConfig.allOn = some (0, 0, 0) ∧
    some (0, 0, 0) ≠ some (171, 52, 223) ∧
    parse ⟨[], [], [], [], []⟩ "#a3d".data
      ⟨false, true, true, true, true, true, true, true, true, true⟩ =
      some (170, 51, 221) ∧
    to_hex6 (170, 51, 221) = "aa33dd".data ∧
    parse ⟨[], [], [], [], []⟩ "aa33dd".data
      ⟨false, true, true, true, true, true, true, true, true, true⟩ = none := by
  refine ⟨by decide, by decide, by decide, by decide, by decide, by decide, by decide⟩

/-- C9 (amended): whenever `parse` succeeds with Triple `t`, re-resolving the
    canonical 6-hex-digit string of `t` under the same configuration yields
    `t` again, PROVIDED the hex6 recognizer is enabled and the canonical
    string is not a key of any enabled name dataset (as holds for the
    shipped datasets, whose keys are English color names). -/
theorem C9_idempotence_amended (tb : Tables) (cfg : ParseConfig) (s : List Char)
    (t : Nat × Nat × Nat) (h : parse tb s cfg = some t) (h6 : cfg.hex6 = true)
    (hcss : cfg.name_css = true → tb.css.lookup (to_hex6 t) = none)
    (hcray : cfg.name_crayola = true → tb.crayola.lookup (to_hex6 t) = none)
    (hxkcd : cfg.name_xkcd = true → tb.xkcd.lookup (to_hex6 t) = none)
    (hmb : cfg.name_meodai_best = true → tb.meodai_best.lookup (to_hex6 t) = none)
    (hm : cfg.name_meodai = true → tb.meodai.lookup (to_hex6 t) = none) :
    parse tb (to_hex6 t) cfg = some t := by
  have hb : bounded t := parse_bounded h
  have hns : ∀ c ∈ to_hex6 t, py_isspace c = false :=
    to_hex6_forall hb _ (fun d hd => (digitChar_props d hd).1)
  have hstrip := strip_eq_self_of_no_space hns
  have hlow := py_lower_to_hex6 hb
  have hshape : ∃ c r, to_hex6 t = c :: r ∧ c ≠ 'r' := by
    rcases t with ⟨t1, t2, t3⟩
    have hb1 : t1 ≤ 255 := hb.1
    exact ⟨_, _, by rw [to_hex6], (digitChar_props _ (by omega)).2.2.2.1⟩
  obtain ⟨ch, cr, hcons, hner⟩ := hshape
  have hsc : py_strip (to_hex6 t) = ch :: cr := by rw [hstrip, hcons]
  have hlen3 : (strip_hash (to_hex6 t)).length ≠ 3 := by
    rw [strip_hash_of_no_hash hstrip ?hh]
    · rcases t with ⟨t1, t2, t3⟩
      rw [to_hex6]
      simp
    · rcases t with ⟨t1, t2, t3⟩
      have hb1 : t1 ≤ 255 := hb.1
      rw [to_hex6]
      simp only [List.head?_cons, ne_eq, Option.some_inj]
      exact (digitChar_props _ (by omega)).2.2.1
  have htail : ∀ f ∈ parse_funcs_tail tb cfg, f (to_hex6 t) = none := by
    intro f hf
    rcases parse_funcs_tail_mem hf with
      rfl | rfl | rfl | rfl | ⟨hfl, rfl⟩ | ⟨hfl, rfl⟩ | ⟨hfl, rfl⟩ | ⟨hfl, rfl⟩ |
      ⟨hfl, rfl⟩
    · exact parse_hex3_none_of_shape hlen3
    · exact parse_rgbfunc_int_none_head hsc hner
    · exact parse_rgbfunc_float_none_head hsc hner
    · exact parse_rgbfunc_percent_none_head hsc hner
    · exact parse_name_none_of_lookup hlow (hcss hfl)
    · exact parse_name_none_of_lookup hlow (hcray hfl)
    · exact parse_name_none_of_lookup hlow (hxkcd hfl)
    · exact parse_name_none_of_lookup hlow (hmb hfl)
    · exact parse_name_none_of_lookup hlow (hm hfl)
  rw [parse_eq_findSome, parse_funcs_split h6, List.reverse_cons,
    List.findSome?_append]
  have hrev : (parse_funcs_tail tb cfg).reverse.findSome?
      (fun f => f (to_hex6 t)) = none := by
    rw [List.findSome?_eq_none_iff]
    intro f hf
    exact htail f (List.mem_reverse.1 hf)
  rw [hrev, Option.none_or, List.findSome?_cons, parse_hex6_to_hex6 hb]

/-- Witness for C9 (amended) at a concrete input. -/
theorem C9_idempotence_amended_witness :
    parse ⟨[], [], [], [], []⟩ (to_hex6 (171, 52, 223)) ParseConfig.allOn =
      some (171, 52, 223) :=
  C9_idempotence_amended ⟨[], [], [], [], []⟩ ParseConfig.allOn "#ab34df".data
    (171, 52, 223) (by decide) rfl (fun _ => rfl) (fun _ => rfl) (fun _ => rfl)
    (fun _ => rfl) (fun _ => rfl)

end Pilutils
